import Mathlib

/-!
Shallow embedding of `.github/scripts/build_assets/filehandler.py` from the
devicon repository, together with theorems settling the specification claims
about it.

Python strings are modelled as Lean `String`s, JSON records as structures,
and the filesystem as an explicit state value threaded through the stateful
operations.  Exceptions are modelled with `Except` (paired with the
filesystem state reached at raise time for the stateful functions).
-/

/-- One element of an icon record's `aliases` list: `{"alias": ...}`. -/
structure AliasEntry where
  «alias» : String
deriving DecidableEq, Repr

/-- An entry of the `devicon.json` manifest, restricted to the fields the
code reads: `icon['name']`, `icon['aliases']` (possibly absent, hence
`Option`) and `icon['versions']['font']`. -/
structure IconRecord where
  name : String
  aliases : Option (List AliasEntry)
  versions_font : List String
deriving DecidableEq, Repr

/-- An entry of the `icomoon.json` manifest's `icons` array; the code reads
only `font["properties"]["name"]`. -/
structure IcomoonEntry where
  properties_name : String
deriving DecidableEq, Repr

/-- The parsed `icomoon.json` object: `{"icons": [...]}`. -/
structure IcomoonJson where
  icons : List IcomoonEntry
deriving DecidableEq, Repr

/-- The anchored regex search `re.compile(f"^{name}-").search(target)` of
`is_not_in_icomoon_json`: with the `^` anchor and no regex flags this holds
exactly when `target` starts with `name ++ "-"` (icon names are plain
lowercase alphanumeric words, so the interpolated name is a literal regex).
Prefix testing is done on the underlying character lists. -/
def nameDashPrefixMatch (name target : String) : Bool :=
  (name ++ "-").data.isPrefixOf target.data

/-- The scan `for font in icomoon_json["icons"]: if pattern.search(...):
return False` followed by `return True`. -/
def noEntryMatches (name : String) : List IcomoonEntry → Bool
  | [] => true
  | font :: rest =>
    if nameDashPrefixMatch name font.properties_name then false
    else noEntryMatches name rest

/-- `is_not_in_icomoon_json(icon, icomoon_json)`: true iff no entry of
`icomoon_json["icons"]` has a `properties.name` matching `^{icon['name']}-`. -/
def is_not_in_icomoon_json (icon : IconRecord) (icomoon_json : IcomoonJson) : Bool :=
  noEntryMatches icon.name icomoon_json.icons

/-- `find_new_icons(devicon_json_path, icomoon_json_path)`, modelled on the
already-parsed manifests (the function itself only loads the two JSON files
and then runs the loop below): keeps, in order, the records of
`devicon_json` for which `is_not_in_icomoon_json` holds. -/
def find_new_icons : List IconRecord → IcomoonJson → List IconRecord
  | [], _ => []
  | icon :: rest, icomoon_json =>
    if is_not_in_icomoon_json icon icomoon_json then
      icon :: find_new_icons rest icomoon_json
    else
      find_new_icons rest icomoon_json

example : nameDashPrefixMatch "foo" "foo-plain" = true := by decide
example : nameDashPrefixMatch "foo" "foo" = false := by decide
example :
    find_new_icons [⟨"foo", none, []⟩] ⟨[⟨"foo-plain"⟩]⟩ = [] := by decide
example :
    find_new_icons [⟨"foo", none, []⟩] ⟨[⟨"foo"⟩]⟩ = [⟨"foo", none, []⟩] := by
  decide

/-- The local filesystem, as the code observes and mutates it: the set of
directories, the set of regular files, and the set of paths at which a
creation attempt fails with `PermissionError` (modelling OS-level access
denial, one of the non-`FileExistsError` outcomes `os.mkdir` can have). -/
structure FileSystem where
  dirs : List String
  files : List String
  readOnly : List String
deriving DecidableEq, Repr

/-- `Path(p).is_dir()`. -/
def FileSystem.is_dir (fs : FileSystem) (p : String) : Bool :=
  fs.dirs.contains p

/-- Whether `p` is a regular file. -/
def FileSystem.isFile (fs : FileSystem) (p : String) : Bool :=
  fs.files.contains p

/-- `Path(p).exists()`: the path is a directory or a regular file. -/
def FileSystem.pathExists (fs : FileSystem) (p : String) : Bool :=
  fs.is_dir p || fs.isFile p

/-- Drop a trailing `/` from a path component, at the character-list level
so that it evaluates inside the kernel. -/
def stripTrailingSlash (child : String) : String :=
  if child.data.getLast? = some '/' then String.mk child.data.dropLast
  else child

/-- `Path(base, child)` rendered as a string: `pathlib` joins with `/` and
normalises away a trailing separator of the child
(`Path("a", "screenshots/")` prints as `a/screenshots`). -/
def pathJoin (base child : String) : String :=
  base ++ "/" ++ stripTrailingSlash child

/-- Equality of `Except` results is decidable; used to evaluate the
embedded functions on concrete inputs. -/
instance {ε α : Type} [DecidableEq ε] [DecidableEq α] :
    DecidableEq (Except ε α) := fun x y =>
  match x, y with
  | .ok a, .ok b =>
    if h : a = b then .isTrue (by rw [h])
    else .isFalse (by intro hh; cases hh; exact h rfl)
  | .ok a, .error e => .isFalse (by intro hh; cases hh)
  | .error e, .ok b => .isFalse (by intro hh; cases hh)
  | .error e, .error f =>
    if h : e = f then .isTrue (by rw [h])
    else .isFalse (by intro hh; cases hh; exact h rfl)

example : pathJoin "/base" "screenshots/" = "/base/screenshots" := by decide
example : pathJoin "/r" "icon" = "/r/icon" := by decide

/-- The two `ValueError`s `get_svgs_paths` can raise: the spec calls them
`InvalidDirectory` (message `Invalid path. This is not a directory: ...`)
and `MissingFile` (message `This path doesn't exist: ...`), each carrying
the offending path. -/
inductive SvgPathError
  | invalidDirectory (folder_path : String)
  | missingFile (path : String)
deriving DecidableEq, Repr

/-- The `try: icon_info["aliases"] except KeyError: aliases = []` access:
an absent key yields the empty list. -/
def getAliases (icon_info : IconRecord) : List AliasEntry :=
  match icon_info.aliases with
  | some a => a
  | none => []

/-- `is_alias(font_version, aliases)`: scans the alias list and returns
true on the first entry whose `alias` field equals the version. -/
def is_alias (font_version : String) : List AliasEntry → Bool
  | [] => false
  | a :: rest =>
    if font_version == a.«alias» then true else is_alias font_version rest

/-- The inner loop of `get_svgs_paths` over `icon_info["versions"]["font"]`
for one icon: an aliased version is skipped (diagnostic print only); for
any other version the path `<folder>/<name>-<version>.svg` is appended if
it exists and otherwise the `MissingFile` `ValueError` aborts the run. -/
def collectVersionPaths (fs : FileSystem) (icon_info : IconRecord)
    (folder_path : String) : List String → Except SvgPathError (List String)
  | [] => .ok []
  | font_version :: rest =>
    if is_alias font_version (getAliases icon_info) then
      collectVersionPaths fs icon_info folder_path rest
    else
      let file_name := icon_info.name ++ "-" ++ font_version ++ ".svg"
      let path := pathJoin folder_path file_name
      if fs.pathExists path then
        match collectVersionPaths fs icon_info folder_path rest with
        | .ok l => .ok (path :: l)
        | .error e => .error e
      else
        .error (.missingFile path)

/-- `get_svgs_paths(new_icons, icons_folder_path)`: per icon, resolve the
subfolder `<icons_folder_path>/<name>` and raise `InvalidDirectory` if it
is not a directory, then collect the per-version paths; the accumulated
list concatenates across icons, and any raise aborts the whole run with no
list returned. -/
def get_svgs_paths (fs : FileSystem) :
    List IconRecord → String → Except SvgPathError (List String)
  | [], _ => .ok []
  | icon_info :: rest, icons_folder_path =>
    let folder_path := pathJoin icons_folder_path icon_info.name
    if fs.is_dir folder_path then
      match collectVersionPaths fs icon_info folder_path
          icon_info.versions_font with
      | .error e => .error e
      | .ok l =>
        match get_svgs_paths fs rest icons_folder_path with
        | .error e => .error e
        | .ok l2 => .ok (l ++ l2)
    else
      .error (.invalidDirectory folder_path)

example :
    get_svgs_paths
      ⟨["/r/foo"], ["/r/foo/foo-v2.svg"], []⟩
      [⟨"foo", some [⟨"v1"⟩], ["v1", "v2"]⟩] "/r"
      = .ok ["/r/foo/foo-v2.svg"] := by decide
example :
    get_svgs_paths ⟨["/r/foo"], [], []⟩ [⟨"foo", none, ["v1"]⟩] "/r"
      = .error (.missingFile "/r/foo/foo-v1.svg") := by decide
example :
    get_svgs_paths ⟨[], [], []⟩ [⟨"foo", none, []⟩] "/r"
      = .error (.invalidDirectory "/r/foo") := by decide

/-- OS-level errors raised by the filesystem calls the code makes:
`FileNotFoundError` (missing source of `os.replace`, missing zip file),
`FileExistsError` (`os.mkdir` on an existing path), `PermissionError`
(creation refused at a read-only location), and the zip library's
`KeyError` for an archive entry that is absent. -/
inductive OsError
  | fileNotFound (path : String)
  | fileExists (path : String)
  | permissionDenied (path : String)
  | keyError (entry : String)
deriving DecidableEq, Repr

/-- The filesystem after `os.replace(src, dst)` succeeds: `src` is gone
and `dst` holds its content (an existing `dst` being overwritten). -/
def replacedFS (fs : FileSystem) (src dst : String) : FileSystem :=
  { fs with files := dst :: fs.files.filter (fun p => p != src && p != dst) }

/-- `os.replace(src, dst)`: raises `FileNotFoundError` when `src` is
absent; otherwise atomically moves `src` to `dst`, silently overwriting an
existing `dst`. -/
def os_replace (fs : FileSystem) (src dst : String) :
    Except OsError FileSystem :=
  if fs.isFile src then
    .ok (replacedFS fs src dst)
  else
    .error (.fileNotFound src)

/-- The loop `for dict_ in old_to_new_list: os.replace(dict_["old"],
dict_["new"])`: runs the replacements in order; a raise aborts the loop,
and the filesystem keeps whatever the earlier iterations already did. -/
def runReplaces : FileSystem → List (String × String) →
    Except OsError Unit × FileSystem
  | fs, [] => (.ok (), fs)
  | fs, (old, new) :: rest =>
    match os_replace fs old new with
    | .error e => (.error e, fs)
    | .ok fs1 => runReplaces fs1 rest

/-- `rename_extracted_files(extract_path)`: replaces
`selection.json → icomoon.json` then `style.css → devicon.css` under
`extract_path`, returning the outcome together with the filesystem state
reached (also on the raising paths). -/
def rename_extracted_files (fs : FileSystem) (extract_path : String) :
    Except OsError Unit × FileSystem :=
  runReplaces fs
    [(pathJoin extract_path "selection.json",
      pathJoin extract_path "icomoon.json"),
     (pathJoin extract_path "style.css",
      pathJoin extract_path "devicon.css")]

/-- `os.mkdir(p)`: `FileExistsError` when the path already exists,
`PermissionError` when creation is refused there, otherwise the directory
is created. -/
def os_mkdir (fs : FileSystem) (p : String) : Except OsError FileSystem :=
  if fs.pathExists p then .error (.fileExists p)
  else if fs.readOnly.contains p then .error (.permissionDenied p)
  else .ok { fs with dirs := p :: fs.dirs }

/-- The generic `Exception` raised by `create_screenshot_folder` when the
given base dir is not a directory. -/
inductive ScreenshotError
  | notADirectory (path : String)
deriving DecidableEq, Repr

/-- `create_screenshot_folder(dir, screenshot_name="screenshots/")`.
`Path(dir).resolve()` is modelled as the identity (inputs are taken as
already-absolute, symlink-free paths).  The body is
`try: os.mkdir(...) except FileExistsError: print(...) finally: return
str(...)`: the `except` arm turns `FileExistsError` into a logged notice,
and because the `return` sits inside `finally`, Python discards ANY other
in-flight exception from `os.mkdir` as well and still returns the path, so
no `os.mkdir` failure ever propagates. -/
def create_screenshot_folder (fs : FileSystem) (dir : String)
    (screenshot_name : String) : Except ScreenshotError String × FileSystem :=
  let folder := dir
  if fs.is_dir folder then
    let screenshot_folder := pathJoin folder screenshot_name
    match os_mkdir fs screenshot_folder with
    | .ok fs1 => (.ok screenshot_folder, fs1)
    | .error (.fileExists _) => (.ok screenshot_folder, fs)
    | .error _ => (.ok screenshot_folder, fs)
  else
    (.error (.notADirectory folder), fs)

example :
    create_screenshot_folder ⟨["/b"], [], []⟩ "/b" "screenshots/"
      = (.ok "/b/screenshots", ⟨["/b/screenshots", "/b"], [], []⟩) := by
  decide
example :
    create_screenshot_folder ⟨["/b"], [], ["/b/screenshots"]⟩ "/b"
      "screenshots/"
      = (.ok "/b/screenshots", ⟨["/b"], [], ["/b/screenshots"]⟩) := by decide
example :
    create_screenshot_folder ⟨[], ["/b"], []⟩ "/b" "screenshots/"
      = (.error (.notADirectory "/b"), ⟨[], ["/b"], []⟩) := by decide

/-- State carried by `extract_files`: the filesystem plus the zip paths for
which an open `ZipFile` handle has not been closed. -/
structure ZState where
  fs : FileSystem
  openHandles : List String
deriving DecidableEq, Repr

/-- Observable events of one `extract_files` run, in order. -/
inductive ZipEvent
  | opened (path : String)
  | extracted (entry : String)
  | closed (path : String)
  | removed (path : String)
deriving DecidableEq, Repr

/-- The hardcoded `target_files` tuple of `extract_files`. -/
def target_files : List String :=
  ["selection.json", "fonts/", "fonts/devicon.ttf", "fonts/devicon.woff",
   "fonts/devicon.eot", "fonts/devicon.svg", "style.css"]

/-- `icomoon_zip.extract(entry, extract_path)`: `KeyError` when the entry
is not in the archive; otherwise writes `<extract_path>/<entry>` (a
directory for an entry with a trailing `/`, a file otherwise, an existing
target being overwritten in place). -/
def zipExtract (fs : FileSystem) (archive : List String) (entry : String)
    (extract_path : String) : Except OsError FileSystem :=
  if archive.contains entry then
    let target := pathJoin extract_path entry
    if entry.data.getLast? = some '/' then
      .ok { fs with dirs := target :: fs.dirs.filter (fun p => p != target) }
    else
      .ok { fs with files := target :: fs.files.filter (fun p => p != target) }
  else
    .error (.keyError entry)

/-- The loop `for file in target_files: icomoon_zip.extract(file,
extract_path)`, recording one `extracted` event per entry; a raise aborts
the loop. -/
def extractLoop (archive : List String) (extract_path : String) :
    FileSystem → List String →
    Except OsError Unit × FileSystem × List ZipEvent
  | fs, [] => (.ok (), fs, [])
  | fs, entry :: rest =>
    match zipExtract fs archive entry extract_path with
    | .error e => (.error e, fs, [])
    | .ok fs1 =>
      let res := extractLoop archive extract_path fs1 rest
      (res.1, res.2.1, .extracted entry :: res.2.2)

/-- `extract_files(zip_path, extract_path, delete=True)`, with the zip
archive's entry list passed in as `archive`.  `ZipFile(zip_path)` opens a
handle (raising `FileNotFoundError` when the file is absent); the
`target_files` are extracted in order; then, only when `delete` is true,
`icomoon_zip.close()` releases the handle and `os.remove(zip_path)`
deletes the archive.  No other statement closes the handle: with `delete`
false, or on a raising path, the handle stays open. -/
def extract_files (st : ZState) (archive : List String)
    (zip_path extract_path : String) (delete : Bool) :
    Except OsError Unit × ZState × List ZipEvent :=
  if st.fs.isFile zip_path then
    let st1 : ZState := { st with openHandles := zip_path :: st.openHandles }
    match extractLoop archive extract_path st1.fs target_files with
    | (.error e, fs2, evs) =>
      (.error e, { st1 with fs := fs2 }, .opened zip_path :: evs)
    | (.ok _, fs2, evs) =>
      if delete then
        (.ok (),
         { openHandles := st1.openHandles.filter (fun p => p != zip_path),
           fs := { fs2 with
                   files := fs2.files.filter (fun p => p != zip_path) } },
         .opened zip_path :: (evs ++ [.closed zip_path, .removed zip_path]))
      else
        (.ok (), { st1 with fs := fs2 }, .opened zip_path :: evs)
  else
    (.error (.fileNotFound zip_path), st, [])

/-! ## Theorems about the diff (`find_new_icons`) -/

theorem noEntryMatches_eq_all (name : String) (l : List IcomoonEntry) :
    noEntryMatches name l
      = l.all (fun f => !nameDashPrefixMatch name f.properties_name) := by
  induction l with
  | nil => rfl
  | cons f rest ih =>
    simp only [noEntryMatches, List.all_cons, ← ih]
    cases nameDashPrefixMatch name f.properties_name <;> simp

theorem noEntryMatches_eq_true_iff (name : String) (l : List IcomoonEntry) :
    noEntryMatches name l = true ↔
      ∀ f ∈ l, nameDashPrefixMatch name f.properties_name = false := by
  simp [noEntryMatches_eq_all, List.all_eq_true]

theorem find_new_icons_eq_filter (A : List IconRecord) (B : IcomoonJson) :
    find_new_icons A B = A.filter (fun i => is_not_in_icomoon_json i B) := by
  induction A with
  | nil => rfl
  | cons a rest ih =>
    simp only [find_new_icons, List.filter_cons, ih]

/-- The pattern `^<name>-` never matches `<name>` itself: the pattern is
one character longer than the candidate. -/
theorem nameDashPrefixMatch_self (name : String) :
    nameDashPrefixMatch name name = false := by
  rw [Bool.eq_false_iff]
  intro h
  have hp := List.isPrefixOf_iff_prefix.mp h
  have hlen := hp.length_le
  have h1 : ("-" : String).data.length = 1 := rfl
  simp [String.data_append, List.length_append, h1] at hlen

/-- C1: a record of manifest A is in the result of `find_new_icons` exactly
when no entry of manifest B has a `properties.name` starting with the
record's name followed by `"-"`; in particular a B entry whose name equals
the record's name exactly does not suppress the record. -/
theorem find_new_icons_mem_characterisation (A : List IconRecord)
    (B : IcomoonJson) (icon : IconRecord) (hA : icon ∈ A) :
    (icon ∈ find_new_icons A B ↔
      ∀ font ∈ B.icons,
        nameDashPrefixMatch icon.name font.properties_name = false)
    ∧ ((∀ font ∈ B.icons, font.properties_name = icon.name) →
      icon ∈ find_new_icons A B) := by
  have hmem : icon ∈ find_new_icons A B ↔
      ∀ font ∈ B.icons,
        nameDashPrefixMatch icon.name font.properties_name = false := by
    rw [find_new_icons_eq_filter, List.mem_filter]
    simp [hA, is_not_in_icomoon_json, noEntryMatches_eq_true_iff]
  refine ⟨hmem, fun hall => hmem.mpr fun font hf => ?_⟩
  rw [hall font hf]
  exact nameDashPrefixMatch_self icon.name

theorem find_new_icons_mem_characterisation_witness :
    (⟨"foo", none, []⟩ : IconRecord)
      ∈ find_new_icons [⟨"foo", none, []⟩] ⟨[⟨"foo"⟩]⟩ :=
  (find_new_icons_mem_characterisation [⟨"foo", none, []⟩] ⟨[⟨"foo"⟩]⟩
    ⟨"foo", none, []⟩ (by decide)).2 (by decide)

/-- C2 counterexample: manifests whose name sets are disjoint (the only A
name `"foo"` differs from the only B name `"foo-plain"`), yet
`find_new_icons` does not return all of A — the B name starts with
`"foo-"`, so the record is suppressed. -/
theorem find_new_icons_disjoint_names_counterexample :
    (∀ a ∈ ([⟨"foo", none, []⟩] : List IconRecord),
      ∀ f ∈ (⟨[⟨"foo-plain"⟩]⟩ : IcomoonJson).icons,
        a.name ≠ f.properties_name)
    ∧ find_new_icons [⟨"foo", none, []⟩] ⟨[⟨"foo-plain"⟩]⟩
        ≠ [⟨"foo", none, []⟩] := by decide

/-- C2 amended: when no B entry name starts with any A record's name
followed by `"-"` (dash-prefix disjointness, rather than mere inequality
of names), `find_new_icons` returns all records of A, in A's order. -/
theorem find_new_icons_prefix_free_returns_all (A : List IconRecord)
    (B : IcomoonJson)
    (h : ∀ a ∈ A, ∀ f ∈ B.icons,
      nameDashPrefixMatch a.name f.properties_name = false) :
    find_new_icons A B = A := by
  induction A with
  | nil => rfl
  | cons a rest ih =>
    have ha : is_not_in_icomoon_json a B = true := by
      rw [is_not_in_icomoon_json, noEntryMatches_eq_true_iff]
      exact fun f hf => h a (List.mem_cons_self a rest) f hf
    simp only [find_new_icons, ha, if_true]
    rw [ih fun a' ha' f hf => h a' (List.mem_cons_of_mem a ha') f hf]

theorem find_new_icons_prefix_free_returns_all_witness :
    find_new_icons [⟨"foo", none, []⟩] ⟨[⟨"bar-plain"⟩]⟩
      = [⟨"foo", none, []⟩] :=
  find_new_icons_prefix_free_returns_all _ _ (by decide)

/-! ## Theorems about the path resolver (`get_svgs_paths`) -/

/-- C6: for a record with aliases `[{alias: "v1"}]` and font versions
`["v1", "v2"]` whose `v2` SVG exists and whose `v1` SVG is absent,
`get_svgs_paths` returns exactly the `v2` path and does not raise for the
missing `v1` file, because `v1` is aliased and is skipped before any
existence check. -/
theorem get_svgs_paths_aliased_missing_ok (fs : FileSystem)
    (icons_folder_path n : String)
    (hdir : fs.is_dir (pathJoin icons_folder_path n) = true)
    (hv2 : fs.pathExists (pathJoin (pathJoin icons_folder_path n)
      (n ++ "-" ++ "v2" ++ ".svg")) = true)
    (_hv1 : fs.pathExists (pathJoin (pathJoin icons_folder_path n)
      (n ++ "-" ++ "v1" ++ ".svg")) = false) :
    get_svgs_paths fs [⟨n, some [⟨"v1"⟩], ["v1", "v2"]⟩] icons_folder_path
      = .ok [pathJoin (pathJoin icons_folder_path n)
          (n ++ "-" ++ "v2" ++ ".svg")] := by
  simp [get_svgs_paths, hdir, collectVersionPaths, is_alias, getAliases, hv2]

theorem get_svgs_paths_aliased_missing_ok_witness :
    get_svgs_paths ⟨["/r/foo"], ["/r/foo/foo-v2.svg"], []⟩
      [⟨"foo", some [⟨"v1"⟩], ["v1", "v2"]⟩] "/r"
      = .ok [pathJoin (pathJoin "/r" "foo") ("foo" ++ "-" ++ "v2" ++ ".svg")] :=
  get_svgs_paths_aliased_missing_ok ⟨["/r/foo"], ["/r/foo/foo-v2.svg"], []⟩
    "/r" "foo" (by decide) (by decide) (by decide)

/-- C9: the alias check precedes the existence check, so an aliased font
version is excluded from the returned list even when its SVG file does
exist on disk. -/
theorem get_svgs_paths_alias_skips_existing (fs : FileSystem)
    (icons_folder_path n v : String) (als : List AliasEntry)
    (halias : is_alias v als = true)
    (hdir : fs.is_dir (pathJoin icons_folder_path n) = true)
    (_hexists : fs.pathExists (pathJoin (pathJoin icons_folder_path n)
      (n ++ "-" ++ v ++ ".svg")) = true) :
    get_svgs_paths fs [⟨n, some als, [v]⟩] icons_folder_path = .ok [] := by
  simp [get_svgs_paths, hdir, collectVersionPaths, getAliases, halias]

theorem get_svgs_paths_alias_skips_existing_witness :
    get_svgs_paths ⟨["/r/foo"], ["/r/foo/foo-v1.svg"], []⟩
      [⟨"foo", some [⟨"v1"⟩], ["v1"]⟩] "/r" = .ok [] :=
  get_svgs_paths_alias_skips_existing ⟨["/r/foo"], ["/r/foo/foo-v1.svg"], []⟩
    "/r" "foo" "v1" [⟨"v1"⟩] (by decide) (by decide) (by decide)

/-- A missing, non-aliased font version makes the per-icon scan raise the
`MissingFile` `ValueError` (at that version's path or an earlier one). -/
theorem collectVersionPaths_error_of_missing (fs : FileSystem)
    (icon_info : IconRecord) (folder_path : String) (l : List String)
    (v : String) (hv : v ∈ l)
    (hna : is_alias v (getAliases icon_info) = false)
    (hmiss : fs.pathExists (pathJoin folder_path
      (icon_info.name ++ "-" ++ v ++ ".svg")) = false) :
    ∃ p, collectVersionPaths fs icon_info folder_path l
      = .error (.missingFile p) := by
  induction l with
  | nil => cases hv
  | cons v0 rest ih =>
    rcases List.mem_cons.mp hv with rfl | hvtail
    · exact ⟨pathJoin folder_path (icon_info.name ++ "-" ++ v ++ ".svg"),
        by simp [collectVersionPaths, hna, hmiss]⟩
    · obtain ⟨p, hp⟩ := ih hvtail
      by_cases ha0 : is_alias v0 (getAliases icon_info) = true
      · exact ⟨p, by simp [collectVersionPaths, ha0, hp]⟩
      · have ha0' : is_alias v0 (getAliases icon_info) = false :=
          Bool.not_eq_true _ ▸ ha0
        by_cases hex : fs.pathExists (pathJoin folder_path
            (icon_info.name ++ "-" ++ v0 ++ ".svg")) = true
        · exact ⟨p, by simp [collectVersionPaths, ha0', hex, hp]⟩
        · have hex' : fs.pathExists (pathJoin folder_path
              (icon_info.name ++ "-" ++ v0 ++ ".svg")) = false :=
            Bool.not_eq_true _ ▸ hex
          exact ⟨pathJoin folder_path (icon_info.name ++ "-" ++ v0 ++ ".svg"),
            by simp [collectVersionPaths, ha0', hex']⟩

/-- C7: `get_svgs_paths` raises the `InvalidDirectory` `ValueError` when an
icon's subfolder is not a directory, and the `MissingFile` `ValueError`
when a non-aliased font version's SVG is absent (the subfolder existing);
in both cases the run aborts with an error and no list is returned. -/
theorem get_svgs_paths_error_cases :
    (∀ (fs : FileSystem) (icons_folder_path : String) (icon : IconRecord)
        (rest : List IconRecord),
      fs.is_dir (pathJoin icons_folder_path icon.name) = false →
      get_svgs_paths fs (icon :: rest) icons_folder_path
        = .error (.invalidDirectory (pathJoin icons_folder_path icon.name)))
    ∧ (∀ (fs : FileSystem) (icons_folder_path : String) (icon : IconRecord)
        (v : String),
      fs.is_dir (pathJoin icons_folder_path icon.name) = true →
      v ∈ icon.versions_font →
      is_alias v (getAliases icon) = false →
      fs.pathExists (pathJoin (pathJoin icons_folder_path icon.name)
        (icon.name ++ "-" ++ v ++ ".svg")) = false →
      ∃ p, get_svgs_paths fs [icon] icons_folder_path
        = .error (.missingFile p)) := by
  constructor
  · intro fs root icon rest hdir
    simp [get_svgs_paths, hdir]
  · intro fs root icon v hdir hv hna hmiss
    obtain ⟨p, hp⟩ := collectVersionPaths_error_of_missing fs icon
      (pathJoin root icon.name) icon.versions_font v hv hna hmiss
    exact ⟨p, by simp [get_svgs_paths, hdir, hp]⟩

/-! ## Theorems about the renamer (`rename_extracted_files`) -/

theorem contains_iff_mem (l : List String) (p : String) :
    l.contains p = true ↔ p ∈ l := List.elem_iff

theorem pathJoin_ne_of_length_ne (base a b : String)
    (h : (stripTrailingSlash a).data.length
      ≠ (stripTrailingSlash b).data.length) :
    pathJoin base a ≠ pathJoin base b := by
  intro he
  apply h
  have h2 := congrArg (fun s => s.data.length) he
  have h1 : ("/" : String).data.length = 1 := rfl
  simp only [pathJoin, String.data_append, List.length_append, h1] at h2
  omega

/-- The four paths handled by `rename_extracted_files` are pairwise
distinct under any extract path (their file names have pairwise different
lengths). -/
theorem rename_paths_distinct (ep : String) :
    pathJoin ep "style.css" ≠ pathJoin ep "selection.json"
    ∧ pathJoin ep "style.css" ≠ pathJoin ep "icomoon.json"
    ∧ pathJoin ep "icomoon.json" ≠ pathJoin ep "selection.json"
    ∧ pathJoin ep "icomoon.json" ≠ pathJoin ep "devicon.css" :=
  ⟨pathJoin_ne_of_length_ne ep _ _ (by decide),
   pathJoin_ne_of_length_ne ep _ _ (by decide),
   pathJoin_ne_of_length_ne ep _ _ (by decide),
   pathJoin_ne_of_length_ne ep _ _ (by decide)⟩

/-- C4 counterexample: with `selection.json` present and `style.css`
absent, `rename_extracted_files` raises, yet the filesystem it leaves
behind differs from the initial one — the first rename
(`selection.json → icomoon.json`) has already happened and persists. -/
theorem rename_extracted_files_partial_counterexample :
    (rename_extracted_files ⟨[], ["/e/selection.json"], []⟩ "/e").1
        = .error (.fileNotFound "/e/style.css")
    ∧ (rename_extracted_files ⟨[], ["/e/selection.json"], []⟩ "/e").2
        ≠ ⟨[], ["/e/selection.json"], []⟩
    ∧ (rename_extracted_files ⟨[], ["/e/selection.json"], []⟩
        "/e").2.isFile "/e/icomoon.json" = true := by decide

/-- `os.replace` with an existing source: the computed result state. -/
theorem os_replace_spec (fs : FileSystem) (src dst : String)
    (h : fs.isFile src = true) :
    os_replace fs src dst = .ok (replacedFS fs src dst) := by
  simp [os_replace, h]

/-- File membership after a successful `os.replace`: exactly `dst`, plus
everything previously present other than `src`. -/
theorem isFile_replace (fs : FileSystem) (src dst p : String) :
    (replacedFS fs src dst).isFile p = true
      ↔ (p = dst ∨ (fs.isFile p = true ∧ p ≠ src)) := by
  simp only [replacedFS, FileSystem.isFile, contains_iff_mem]
  constructor
  · intro hmem
    rcases List.mem_cons.mp hmem with heq | hmem2
    · exact .inl heq
    · obtain ⟨hm, hcond⟩ := List.mem_filter.mp hmem2
      simp only [Bool.and_eq_true, bne_iff_ne, ne_eq] at hcond
      exact .inr ⟨hm, hcond.1⟩
  · intro h
    rcases h with rfl | ⟨hf, hne⟩
    · exact List.mem_cons_self _ _
    · by_cases hd : p = dst
      · subst hd; exact List.mem_cons_self _ _
      · refine List.mem_cons_of_mem _ (List.mem_filter.mpr ⟨?_, ?_⟩)
        · exact hf
        · simp [hne, hd]

/-- C4 amended: `rename_extracted_files` renames exactly
`selection.json → icomoon.json` and `style.css → devicon.css`, raising a
propagated `FileNotFoundError` if either source file is absent; when
`selection.json` is absent nothing has changed, but when only `style.css`
is absent the raise leaves the already-performed first rename in place
(the state is not rolled back). -/
theorem rename_extracted_files_behaviour (fs : FileSystem) (ep : String) :
    (fs.isFile (pathJoin ep "selection.json") = false →
      rename_extracted_files fs ep
        = (.error (.fileNotFound (pathJoin ep "selection.json")), fs))
    ∧ (fs.isFile (pathJoin ep "selection.json") = true →
       fs.isFile (pathJoin ep "style.css") = false →
      ∃ fs1, rename_extracted_files fs ep
          = (.error (.fileNotFound (pathJoin ep "style.css")), fs1)
        ∧ fs1.isFile (pathJoin ep "icomoon.json") = true
        ∧ fs1.isFile (pathJoin ep "selection.json") = false) := by
  obtain ⟨d1, d2, d3, d4⟩ := rename_paths_distinct ep
  constructor
  · intro hsel
    simp [rename_extracted_files, runReplaces, os_replace, hsel]
  · intro hsel hsty
    refine ⟨replacedFS fs (pathJoin ep "selection.json")
        (pathJoin ep "icomoon.json"), ?_, ?_, ?_⟩
    · have hsty1 : (replacedFS fs (pathJoin ep "selection.json")
          (pathJoin ep "icomoon.json")).isFile
          (pathJoin ep "style.css") = false := by
        rw [Bool.eq_false_iff]
        intro hmem
        rcases (isFile_replace fs _ _ _).mp hmem with heq | ⟨hf, _⟩
        · exact d2 heq
        · rw [hsty] at hf; cases hf
      simp [rename_extracted_files, runReplaces, os_replace, hsel, hsty1]
    · exact (isFile_replace fs _ _ _).mpr (.inl rfl)
    · rw [Bool.eq_false_iff]
      intro hmem
      rcases (isFile_replace fs _ _ _).mp hmem with heq | ⟨_, hne⟩
      · exact d3 heq.symm
      · exact hne rfl

theorem rename_extracted_files_behaviour_witness :
    rename_extracted_files ⟨[], [], []⟩ "/e"
        = (.error (.fileNotFound (pathJoin "/e" "selection.json")),
            ⟨[], [], []⟩)
    ∧ ∃ fs1, rename_extracted_files ⟨[], ["/e/selection.json"], []⟩ "/e"
          = (.error (.fileNotFound (pathJoin "/e" "style.css")), fs1)
        ∧ fs1.isFile (pathJoin "/e" "icomoon.json") = true
        ∧ fs1.isFile (pathJoin "/e" "selection.json") = false :=
  ⟨(rename_extracted_files_behaviour ⟨[], [], []⟩ "/e").1 (by decide),
   (rename_extracted_files_behaviour ⟨[], ["/e/selection.json"], []⟩
     "/e").2 (by decide) (by decide)⟩

/-- C10: when both source files are present, `rename_extracted_files`
completes without raising even if a destination file (`icomoon.json` or
`devicon.css`) already exists — `os.replace` silently overwrites it — and
both destinations exist afterwards. -/
theorem rename_extracted_files_overwrites_dest (fs : FileSystem)
    (ep : String)
    (hsel : fs.isFile (pathJoin ep "selection.json") = true)
    (hsty : fs.isFile (pathJoin ep "style.css") = true) :
    ∃ fs2, rename_extracted_files fs ep = (.ok (), fs2)
      ∧ fs2.isFile (pathJoin ep "icomoon.json") = true
      ∧ fs2.isFile (pathJoin ep "devicon.css") = true := by
  obtain ⟨d1, d2, d3, d4⟩ := rename_paths_distinct ep
  have hsty1 : (replacedFS fs (pathJoin ep "selection.json")
      (pathJoin ep "icomoon.json")).isFile
      (pathJoin ep "style.css") = true :=
    (isFile_replace fs _ _ _).mpr (.inr ⟨hsty, d1⟩)
  refine ⟨replacedFS (replacedFS fs (pathJoin ep "selection.json")
      (pathJoin ep "icomoon.json")) (pathJoin ep "style.css")
      (pathJoin ep "devicon.css"), ?_, ?_, ?_⟩
  · simp [rename_extracted_files, runReplaces, os_replace, hsel, hsty1]
  · exact (isFile_replace _ _ _ _).mpr
      (.inr ⟨(isFile_replace fs _ _ _).mpr (.inl rfl), d2.symm⟩)
  · exact (isFile_replace _ _ _ _).mpr (.inl rfl)

theorem rename_extracted_files_overwrites_dest_witness :
    ∃ fs2, rename_extracted_files
        ⟨[], ["/e/selection.json", "/e/style.css", "/e/icomoon.json",
              "/e/devicon.css"], []⟩ "/e" = (.ok (), fs2)
      ∧ fs2.isFile (pathJoin "/e" "icomoon.json") = true
      ∧ fs2.isFile (pathJoin "/e" "devicon.css") = true :=
  rename_extracted_files_overwrites_dest
    ⟨[], ["/e/selection.json", "/e/style.css", "/e/icomoon.json",
          "/e/devicon.css"], []⟩ "/e" (by decide) (by decide)

theorem get_svgs_paths_error_cases_witness :
    get_svgs_paths ⟨[], [], []⟩ [⟨"foo", none, []⟩] "/r"
        = .error (.invalidDirectory (pathJoin "/r" "foo"))
    ∧ ∃ p, get_svgs_paths ⟨["/r/foo"], [], []⟩ [⟨"foo", none, ["v1"]⟩] "/r"
        = .error (.missingFile p) :=
  ⟨get_svgs_paths_error_cases.1 ⟨[], [], []⟩ "/r" ⟨"foo", none, []⟩ []
      (by decide),
   get_svgs_paths_error_cases.2 ⟨["/r/foo"], [], []⟩ "/r"
      ⟨"foo", none, ["v1"]⟩ "v1" (by decide) (by decide) (by decide)
      (by decide)⟩

/-! ## Theorems about the screenshot folder creator -/

/-- A successful `os.mkdir` only adds a directory, so every directory that
existed before still exists afterwards. -/
theorem os_mkdir_preserves_dir (fs : FileSystem) (q : String)
    (fs1 : FileSystem) (hm : os_mkdir fs q = .ok fs1) (p : String)
    (h : fs.is_dir p = true) : fs1.is_dir p = true := by
  unfold os_mkdir at hm
  split at hm
  · cases hm
  · split at hm
    · cases hm
    · cases hm
      simp only [FileSystem.is_dir] at h ⊢
      simp only [List.contains_cons]
      simp [(contains_iff_mem fs.dirs p).mp h]

/-- When the base dir is a directory, `create_screenshot_folder` returns
the subfolder path whatever `os.mkdir` did: creation, `FileExistsError`
(caught), or any other error (discarded by the `return` in `finally`). -/
theorem create_screenshot_folder_fst (fs : FileSystem) (dir sname : String)
    (hdir : fs.is_dir dir = true) :
    (create_screenshot_folder fs dir sname).1 = .ok (pathJoin dir sname) := by
  simp only [create_screenshot_folder, hdir, if_true]
  cases hm : os_mkdir fs (pathJoin dir sname) with
  | ok fs1 => rfl
  | error e => cases e <;> rfl

/-- `create_screenshot_folder` preserves every existing directory. -/
theorem create_screenshot_folder_snd_dir (fs : FileSystem)
    (dir sname p : String) (h : fs.is_dir p = true) :
    (create_screenshot_folder fs dir sname).2.is_dir p = true := by
  by_cases hdir : fs.is_dir dir = true
  · simp only [create_screenshot_folder, hdir, if_true]
    cases hm : os_mkdir fs (pathJoin dir sname) with
    | ok fs1 => exact os_mkdir_preserves_dir fs _ fs1 hm p h
    | error e => cases e <;> exact h
  · simp only [create_screenshot_folder, hdir, if_false]
    exact h

/-- C8: `create_screenshot_folder` is idempotent — for an existing base
directory, two consecutive calls with the same arguments both return the
same subfolder path without raising, the second call's
`FileExistsError` being caught and treated as success. -/
theorem create_screenshot_folder_idempotent (fs : FileSystem)
    (dir sname : String) (hdir : fs.is_dir dir = true) :
    (create_screenshot_folder fs dir sname).1 = .ok (pathJoin dir sname)
    ∧ (create_screenshot_folder
        (create_screenshot_folder fs dir sname).2 dir sname).1
      = .ok (pathJoin dir sname) :=
  ⟨create_screenshot_folder_fst fs dir sname hdir,
   create_screenshot_folder_fst _ dir sname
     (create_screenshot_folder_snd_dir fs dir sname dir hdir)⟩

theorem create_screenshot_folder_idempotent_witness :
    (create_screenshot_folder ⟨["/b"], [], []⟩ "/b" "screenshots/").1
      = .ok (pathJoin "/b" "screenshots/")
    ∧ (create_screenshot_folder
        (create_screenshot_folder ⟨["/b"], [], []⟩ "/b" "screenshots/").2
        "/b" "screenshots/").1
      = .ok (pathJoin "/b" "screenshots/") :=
  create_screenshot_folder_idempotent ⟨["/b"], [], []⟩ "/b" "screenshots/"
    (by decide)

/-- C3: at a failing input where the base dir exists but `os.mkdir` fails
with `PermissionError` (the subfolder path is read-only and does not yet
exist), `create_screenshot_folder` does NOT propagate the error: the
`return` inside `finally` discards the in-flight exception and the call
returns the subfolder path as if creation had succeeded.  Only the
`FileExistsError` case was meant to be non-fatal. -/
theorem create_screenshot_folder_swallows_mkdir_error :
    create_screenshot_folder ⟨["/b"], [], ["/b/screenshots"]⟩ "/b"
      "screenshots/"
      = (.ok "/b/screenshots", ⟨["/b"], [], ["/b/screenshots"]⟩) := by
  decide

/-! ## Theorems about the archive extractor (`extract_files`) -/

/-- Filtering out `t` leaves a list that does not contain `t`. -/
theorem filter_ne_not_contains (l : List String) (t : String) :
    (l.filter (fun q => q != t)).contains t = false := by
  rw [Bool.eq_false_iff]
  intro h
  have hm := (contains_iff_mem _ _).mp h
  have := (List.mem_filter.mp hm).2
  simp at this

/-- Prepending `t` after filtering `t` out keeps every previous member. -/
theorem consFilter_contains (l : List String) (t p : String)
    (h : l.contains p = true) :
    (t :: l.filter (fun q => q != t)).contains p = true := by
  rw [contains_iff_mem] at h ⊢
  rcases eq_or_ne p t with rfl | hne
  · exact List.mem_cons_self _ _
  · exact List.mem_cons_of_mem _ (List.mem_filter.mpr ⟨h, by simp [hne]⟩)

/-- A successful extraction loop records exactly one `extracted` event per
archive entry, in the order of `target_files`. -/
theorem extractLoop_ok_trace (archive : List String) (ep : String) :
    ∀ (l : List String) (fs fs2 : FileSystem) (evs : List ZipEvent),
    extractLoop archive ep fs l = (.ok (), fs2, evs) →
    evs = l.map ZipEvent.extracted := by
  intro l
  induction l with
  | nil =>
    intro fs fs2 evs h
    injection h with h1 h23
    injection h23 with h2 h3
    exact h3.symm
  | cons e rest ih =>
    intro fs fs2 evs h
    unfold extractLoop at h
    cases hz : zipExtract fs archive e ep with
    | error er =>
      rw [hz] at h
      injection h with h1 h23
      cases h1
    | ok fs1 =>
      rw [hz] at h
      simp only [] at h
      rcases hrec : extractLoop archive ep fs1 rest with ⟨r, fs2x, evsx⟩
      rw [hrec] at h
      simp only [] at h
      injection h with h1 h23
      injection h23 with h2 h3
      subst h1
      rw [← h3, ih fs1 fs2x evsx hrec, List.map_cons]

/-- The extraction loop only adds or overwrites entries at the destination:
every file present before a (possibly failing) run is present after it. -/
theorem extractLoop_preserves_isFile (archive : List String) (ep : String) :
    ∀ (l : List String) (fs : FileSystem) (r : Except OsError Unit)
      (fs2 : FileSystem) (evs : List ZipEvent),
    extractLoop archive ep fs l = (r, fs2, evs) →
    ∀ p, fs.isFile p = true → fs2.isFile p = true := by
  intro l
  induction l with
  | nil =>
    intro fs r fs2 evs h p hp
    injection h with h1 h23
    injection h23 with h2 h3
    rw [← h2]
    exact hp
  | cons e rest ih =>
    intro fs r fs2 evs h p hp
    unfold extractLoop at h
    cases hz : zipExtract fs archive e ep with
    | error er =>
      rw [hz] at h
      injection h with h1 h23
      injection h23 with h2 h3
      rw [← h2]
      exact hp
    | ok fs1 =>
      rw [hz] at h
      simp only [] at h
      rcases hrec : extractLoop archive ep fs1 rest with ⟨r2, fs2x, evsx⟩
      rw [hrec] at h
      simp only [] at h
      injection h with h1 h23
      injection h23 with h2 h3
      subst h2
      refine ih fs1 r2 _ evsx hrec p ?_
      unfold zipExtract at hz
      split at hz
      · split at hz
        · cases hz
          exact hp
        · cases hz
          exact consFilter_contains fs.files (pathJoin ep e) p hp
      · cases hz

/-- C5 counterexample: a fully successful run of `extract_files` with the
delete flag false ends with the zip handle still open — no statement in
the function closes the handle on that path, so it is not "released on
every exit path". -/
theorem extract_files_no_close_counterexample :
    (extract_files ⟨⟨[], ["/z/d.zip"], []⟩, []⟩ target_files "/z/d.zip"
        "/e" false).1 = .ok ()
    ∧ ((extract_files ⟨⟨[], ["/z/d.zip"], []⟩, []⟩ target_files "/z/d.zip"
        "/e" false).2.1.openHandles.contains "/z/d.zip") = true := by decide

/-- C5 amended: for every successful run of `extract_files`: with the
delete flag true, the zip handle is closed and only then is the archive
removed (the trace ends `closed` then `removed`), and afterwards the
archive file is gone and the handle released; with the delete flag false,
the archive file still exists afterwards but the handle is NOT released —
it stays open, left to deallocation. -/
theorem extract_files_handle_and_archive (st : ZState)
    (archive : List String) (zip_path extract_path : String)
    (delete : Bool) (st2 : ZState) (tr : List ZipEvent)
    (hrun : extract_files st archive zip_path extract_path delete
      = (.ok (), st2, tr)) :
    (delete = true →
      st2.fs.isFile zip_path = false
      ∧ st2.openHandles.contains zip_path = false
      ∧ tr = .opened zip_path ::
          (target_files.map ZipEvent.extracted
            ++ [.closed zip_path, .removed zip_path]))
    ∧ (delete = false →
      st2.fs.isFile zip_path = true
      ∧ st2.openHandles.contains zip_path = true) := by
  by_cases hz : st.fs.isFile zip_path = true
  · simp only [extract_files, hz, if_true] at hrun
    rcases hloop : extractLoop archive extract_path st.fs target_files
      with ⟨r, fs2, evs⟩
    rw [hloop] at hrun
    cases r with
    | error e =>
      injection hrun with h1 h23
      cases h1
    | ok u =>
      cases u
      cases delete with
      | true =>
        simp only [eq_self_iff_true, if_true] at hrun
        injection hrun with h1 h23
        injection h23 with h2 h3
        subst h2
        subst h3
        constructor
        · intro _
          refine ⟨?_, ?_, ?_⟩
          · exact filter_ne_not_contains fs2.files zip_path
          · exact filter_ne_not_contains (zip_path :: st.openHandles)
              zip_path
          · rw [extractLoop_ok_trace archive extract_path target_files
              st.fs fs2 evs hloop]
        · intro hd
          cases hd
      | false =>
        simp only [Bool.false_eq_true, if_false] at hrun
        injection hrun with h1 h23
        injection h23 with h2 h3
        subst h2
        subst h3
        constructor
        · intro hd
          cases hd
        · intro _
          constructor
          · exact extractLoop_preserves_isFile archive extract_path
              target_files st.fs (.ok ()) fs2 evs hloop zip_path hz
          · simp [List.contains_cons]
  · rw [Bool.not_eq_true] at hz
    simp only [extract_files, hz, Bool.false_eq_true, if_false] at hrun
    injection hrun with h1 h23
    cases h1

/-- A concrete scenario for `extract_files`: the archive `/z/d.zip` exists
and contains exactly the `target_files` entries. -/
def zipScenarioState : ZState := ⟨⟨[], ["/z/d.zip"], []⟩, []⟩

/-- The run of `extract_files` on the scenario with `delete = true`. -/
def zipScenarioRun : Except OsError Unit × ZState × List ZipEvent :=
  extract_files zipScenarioState target_files "/z/d.zip" "/e" true

theorem extract_files_handle_and_archive_witness :
    (zipScenarioRun.2.1).fs.isFile "/z/d.zip" = false
    ∧ (zipScenarioRun.2.1).openHandles.contains "/z/d.zip" = false
    ∧ zipScenarioRun.2.2 = .opened "/z/d.zip" ::
        (target_files.map ZipEvent.extracted
          ++ [.closed "/z/d.zip", .removed "/z/d.zip"]) :=
  (extract_files_handle_and_archive zipScenarioState target_files
    "/z/d.zip" "/e" true zipScenarioRun.2.1 zipScenarioRun.2.2
    (by decide)).1 rfl
